import Mathlib

/-
Shallow embedding of src/backend/server_monitor.py (class ServerMonitor).

State that the Python code keeps in `self` is modelled explicitly:
`subscriptions` as a `List Subscription`, `known_servers` as a
`Finset String`, and the scalar fields as a `MonitorState` record.
Python dicts that are used as string-keyed mappings are modelled as
association lists built with `dictInsert` (insert-or-overwrite, which is
exactly Python dict assignment: an existing key keeps its position and gets
the new value, a fresh key is appended).  A dict field that may be absent
("history" may be missing from a restored subscription dict) is an
`Option`.  `datetime.now()` is threaded in as an opaque `now : String`
parameter.  The external collaborators (`check_availability`,
`send_notification`, `add_log`) are boundaries: the fetched snapshot is
passed in as an argument, a sent notification is recorded as an
`AlertEvent` in the returned list, and logging has no modelled effect.
-/

set_option autoImplicit false

namespace ServerMonitor

/-- Configuration info dict built at server_monitor.py:159-163:
`{"memory": m, "storage": s, "display": f"{m} + {s}"}`. -/
structure ConfigInfo where
  memory : String
  storage : String
  display : String
deriving DecidableEq

/-- History entry dict built at server_monitor.py:238-248.  `config` is the
optional configuration info attached when present. -/
structure HistoryEntry where
  timestamp : String
  datacenter : String
  status : String
  changeType : String
  oldStatus : Option String
  config : Option ConfigInfo
deriving DecidableEq

/-- One delivered availability notification (a call of
`send_availability_alert`, server_monitor.py:232).  The composed message
string is a pure function of these fields, so the event record stands for
the notification. -/
structure AlertEvent where
  planCode : String
  datacenter : String
  status : String
  changeType : String
  config : Option ConfigInfo
  serverName : Option String
deriving DecidableEq

/-- Subscription dict (server_monitor.py:64-72).  `history` is an `Option`
because the code guards `if "history" not in existing/subscription`;
`serverName` is an `Option` because the key may be absent or `None` (both
read back as `None` via `.get`). -/
structure Subscription where
  planCode : String
  datacenters : List String
  notifyAvailable : Bool
  notifyUnavailable : Bool
  lastStatus : List (String × String)
  createdAt : String
  history : Option (List HistoryEntry)
  serverName : Option String
deriving DecidableEq

/-- One value of the availability snapshot returned by the external
`check_availability` function: either a plain status string (legacy flat
mode, server_monitor.py:129) or a configuration record with a
`datacenters` sub-map and optional memory/storage fields
(server_monitor.py:141-143). -/
inductive ConfigData where
  | str (status : String)
  | config (datacenters : List (String × String))
           (memory : Option String) (storage : Option String)
deriving DecidableEq

/-- A raw availability snapshot: the dict iterated at
server_monitor.py:124.  The empty list models a falsy return (`None` or
`{}`) of the external source. -/
abbrev Snapshot := List (String × ConfigData)

/-- Python `d.get(k)` on a string-keyed dict modelled as an assoc list. -/
def dictGet (m : List (String × String)) (k : String) : Option String :=
  match m with
  | [] => none
  | p :: rest => if p.1 = k then some p.2 else dictGet rest k

/-- Python `d[k] = v`: overwrite in place if the key exists, else append. -/
def dictInsert (m : List (String × String)) (k v : String) :
    List (String × String) :=
  match m with
  | [] => [(k, v)]
  | p :: rest => if p.1 = k then (k, v) :: rest else p :: dictInsert rest k v

/-- The (key, value) pairs written into `new_last_status` by the loop at
server_monitor.py:168-177, in write order: a legacy entry contributes its
own key, a configuration entry contributes `dc ++ "|" ++ configKey` for
every datacenter. -/
def normalized_pairs (snap : Snapshot) : List (String × String) :=
  snap.flatMap fun p =>
    match p.2 with
    | .str s => [(p.1, s)]
    | .config dcs _ _ => dcs.map fun q => (q.1 ++ "|" ++ p.1, q.2)

/-- The `new_last_status` dict of server_monitor.py:168-177: the normalized
pairs written into a fresh dict. -/
def normalize_snapshot (snap : Snapshot) : List (String × String) :=
  (normalized_pairs snap).foldl (fun m q => dictInsert m q.1 q.2) []

/-- The branch conditions of `_check_and_notify_change`
(server_monitor.py:198-224), returning the `change_type` when
`status_changed` ends up `True` and `none` otherwise.  The preference flag
is tested inside the matched branch, exactly as in the source. -/
def decide_change_type (sub : Subscription) (status : String)
    (oldStatus : Option String) : Option String :=
  if oldStatus = none ∧ status ≠ "unavailable" then
    if sub.notifyAvailable then some "available" else none
  else if oldStatus = some "unavailable" ∧ status ≠ "unavailable" then
    if sub.notifyAvailable then some "available" else none
  else if (oldStatus ≠ some "unavailable" ∧ oldStatus ≠ none) ∧
      status = "unavailable" then
    if sub.notifyUnavailable then some "unavailable" else none
  else none

/-- The history append-and-truncate of server_monitor.py:235-254:
initialize the list if the key is absent, append the entry, keep the last
100 entries when the length exceeds 100. -/
def history_append_trunc (h : Option (List HistoryEntry)) (e : HistoryEntry) :
    List HistoryEntry :=
  let h1 := h.getD [] ++ [e]
  if h1.length > 100 then h1.drop (h1.length - 100) else h1

/-- `_check_and_notify_change` (server_monitor.py:185-254) as a pure
function: returns the updated subscription together with the list of
notifications sent (empty or a single alert). -/
def check_and_notify_change (now : String) (sub : Subscription)
    (planCode dc status : String) (oldStatus : Option String)
    (configInfo : Option ConfigInfo) : Subscription × List AlertEvent :=
  match decide_change_type sub status oldStatus with
  | none => (sub, [])
  | some ct =>
    let entry : HistoryEntry := ⟨now, dc, status, ct, oldStatus, configInfo⟩
    ({ sub with history := some (history_append_trunc sub.history entry) },
     [⟨planCode, dc, status, ct, configInfo, sub.serverName⟩])

/-- One status comparison inside the loop of `check_availability_change`:
the datacenter-filter guard (server_monitor.py:134,151) followed by the
lookup in the pre-loop `last_status` and the call of
`_check_and_notify_change`. -/
def process_status (now planCode : String) (monitored : List String)
    (lastSt : List (String × String)) (dc status key : String)
    (cfg : Option ConfigInfo) (st : Subscription × List AlertEvent) :
    Subscription × List AlertEvent :=
  if monitored ≠ [] ∧ dc ∉ monitored then st
  else
    let r := check_and_notify_change now st.1 planCode dc status
      (dictGet lastSt key) cfg
    (r.1, st.2 ++ r.2)

/-- One iteration of the outer loop at server_monitor.py:124-165: a legacy
string entry is one comparison keyed by the datacenter itself; a
configuration entry compares every datacenter of its sub-map under the key
`dc ++ "|" ++ configKey` with the configuration info attached. -/
def process_entry (now planCode : String) (monitored : List String)
    (lastSt : List (String × String)) (st : Subscription × List AlertEvent)
    (entry : String × ConfigData) : Subscription × List AlertEvent :=
  match entry.2 with
  | .str status => process_status now planCode monitored lastSt entry.1
      status entry.1 none st
  | .config dcs mem sto =>
    let memory := mem.getD "N/A"
    let storage := sto.getD "N/A"
    let cfg : ConfigInfo := ⟨memory, storage, memory ++ " + " ++ storage⟩
    dcs.foldl (fun st q => process_status now planCode monitored lastSt q.1
      q.2 (q.1 ++ "|" ++ entry.1) (some cfg) st) st

/-- `check_availability_change` (server_monitor.py:100-183) on the
exception-free path, with the fetched snapshot passed in.  A falsy
snapshot (empty) returns immediately (server_monitor.py:112-114);
otherwise every snapshot entry is processed and `lastStatus` is replaced
wholesale by the normalized snapshot (server_monitor.py:179). -/
def check_availability_change (now : String) (sub : Subscription)
    (snap : Snapshot) : Subscription × List AlertEvent :=
  if snap = [] then (sub, [])
  else
    let r := snap.foldl
      (process_entry now sub.planCode sub.datacenters sub.lastStatus)
      (sub, [])
    ({ r.1 with lastStatus := normalize_snapshot snap }, r.2)

/-- `check_availability_change` when an exception is raised after the
first `n` snapshot entries have been processed: the surrounding
`try/except` (server_monitor.py:109,181) catches it, so the loop stops
there and the wholesale `lastStatus` assignment of server_monitor.py:179
never runs, while the history mutations and notifications of the processed
prefix have already happened. -/
def check_availability_change_exc (now : String) (sub : Subscription)
    (snap : Snapshot) (n : Nat) : Subscription × List AlertEvent :=
  if snap = [] then (sub, [])
  else
    (snap.take n).foldl
      (process_entry now sub.planCode sub.datacenters sub.lastStatus)
      (sub, [])

/-- The in-place update of an existing subscription
(server_monitor.py:53-61): datacenters, the two flags and the server name
are overwritten, `history` is initialized to `[]` only when absent, and
`lastStatus` is not touched. -/
def update_existing (s : Subscription) (dcs : Option (List String))
    (na nu : Bool) (sn : Option String) : Subscription :=
  { s with datacenters := dcs.getD [], notifyAvailable := na,
           notifyUnavailable := nu, serverName := sn,
           history := some (s.history.getD []) }

/-- Update the first subscription with the given plan code, as
`next((s for s in self.subscriptions if ...))` selects the first match. -/
def update_first (subs : List Subscription) (pc : String)
    (f : Subscription → Subscription) : List Subscription :=
  match subs with
  | [] => []
  | s :: rest =>
    if s.planCode = pc then f s :: rest else s :: update_first rest pc f

/-- The subscription dict literal of server_monitor.py:64-76: restored
`lastStatus`/`history` or fresh empty ones, and the `serverName` key only
written for a truthy (present, non-empty) name. -/
def new_subscription (now pc : String) (dcs : Option (List String))
    (na nu : Bool) (sn : Option String)
    (ls : Option (List (String × String)))
    (hist : Option (List HistoryEntry)) : Subscription :=
  { planCode := pc, datacenters := dcs.getD [],
    notifyAvailable := na, notifyUnavailable := nu,
    lastStatus := ls.getD [], createdAt := now,
    history := some (hist.getD []),
    serverName := match sn with
      | some s => if s = "" then none else some s
      | none => none }

/-- `add_subscription` (server_monitor.py:36-81).  `dcs = none` models the
`datacenters=None` default (and `dcs.getD []` is Python's
`datacenters or []`); `ls`/`hist` model the optional restored state. -/
def add_subscription (subs : List Subscription) (now pc : String)
    (dcs : Option (List String)) (na nu : Bool) (sn : Option String)
    (ls : Option (List (String × String)))
    (hist : Option (List HistoryEntry)) : List Subscription :=
  if subs.any (fun s => s.planCode == pc) then
    update_first subs pc (fun s => update_existing s dcs na nu sn)
  else
    subs ++ [new_subscription now pc dcs na nu sn ls hist]

/-- `add_subscription` called with Python's default arguments
(`datacenters=None, notify_available=True, notify_unavailable=False,
server_name=None, last_status=None, history=None`). -/
def add_subscription_defaults (subs : List Subscription) (now pc : String) :
    List Subscription :=
  add_subscription subs now pc none true false none none none

/-- One record of the external offering list passed to
`check_new_servers`; only `planCode` is read by the detection logic (the
remaining fields feed the message text only). -/
structure ServerInfo where
  planCode : Option String
deriving DecidableEq

/-- The set comprehension at server_monitor.py:336:
`{s.get("planCode") for s in current_server_list if s.get("planCode")}`
(a falsy plan code — absent or empty — is skipped). -/
def current_codes (servers : List ServerInfo) : Finset String :=
  (servers.filterMap fun s =>
    s.planCode.bind fun c => if c = "" then none else some c).toFinset

/-- `check_new_servers` (server_monitor.py:328-358) as a function of the
`known_servers` set: returns the new `known_servers` set and the set of
plan codes for which a new-server alert was sent.  If the known set is
empty it is seeded from the observation without alerts; otherwise the
difference fires one alert per unknown code and, only when that difference
is non-empty, the known set is replaced by the full observation. -/
def check_new_servers (known : Finset String) (servers : List ServerInfo) :
    Finset String × Finset String :=
  let codes := current_codes servers
  if known = ∅ then (codes, ∅)
  else
    let newCodes := codes \ known
    if newCodes = ∅ then (known, ∅) else (codes, newCodes)

/-- The scalar monitor state read by `get_status` and
`set_check_interval`. -/
structure MonitorState where
  running : Bool
  subscriptions : List Subscription
  knownServers : Finset String
  checkInterval : Int
deriving DecidableEq

/-- The dict returned by `get_status` (server_monitor.py:445-453). -/
structure StatusReport where
  running : Bool
  subscriptionsCount : Nat
  knownServersCount : Nat
  checkInterval : Int
  subscriptions : List Subscription
deriving DecidableEq

/-- `get_status` (server_monitor.py:445-453). -/
def get_status (st : MonitorState) : StatusReport :=
  ⟨st.running, st.subscriptions.length, st.knownServers.card,
   st.checkInterval, st.subscriptions⟩

/-- `set_check_interval` (server_monitor.py:455-463): below 60 the call is
rejected and nothing changes, otherwise the interval is stored. -/
def set_check_interval (st : MonitorState) (interval : Int) :
    MonitorState × Bool :=
  if interval < 60 then (st, false)
  else ({ st with checkInterval := interval }, true)

/-! ### Helper lemmas -/

theorem check_and_notify_change_lastStatus (now : String) (sub : Subscription)
    (planCode dc status : String) (old : Option String)
    (cfg : Option ConfigInfo) :
    (check_and_notify_change now sub planCode dc status old cfg).1.lastStatus =
      sub.lastStatus := by
  unfold check_and_notify_change
  cases decide_change_type sub status old <;> rfl

theorem process_status_lastStatus (now planCode : String)
    (monitored : List String) (lastSt : List (String × String))
    (dc status key : String) (cfg : Option ConfigInfo)
    (st : Subscription × List AlertEvent) :
    (process_status now planCode monitored lastSt dc status key cfg st).1.lastStatus =
      st.1.lastStatus := by
  unfold process_status
  split
  · rfl
  · exact check_and_notify_change_lastStatus ..

theorem foldl_lastStatus_invariant {α : Type}
    (f : (Subscription × List AlertEvent) → α → Subscription × List AlertEvent)
    (hf : ∀ st x, (f st x).1.lastStatus = st.1.lastStatus) :
    ∀ (l : List α) (st : Subscription × List AlertEvent),
      ((l.foldl f st).1).lastStatus = st.1.lastStatus := by
  intro l
  induction l with
  | nil => intro st; rfl
  | cons x xs ih => intro st; rw [List.foldl_cons, ih, hf]

theorem process_entry_lastStatus (now planCode : String)
    (monitored : List String) (lastSt : List (String × String))
    (st : Subscription × List AlertEvent) (entry : String × ConfigData) :
    (process_entry now planCode monitored lastSt st entry).1.lastStatus =
      st.1.lastStatus := by
  unfold process_entry
  rcases entry with ⟨k, d⟩
  cases d with
  | str s => exact process_status_lastStatus ..
  | config dcs mem sto =>
    exact foldl_lastStatus_invariant _
      (fun st q => process_status_lastStatus ..) dcs st

theorem process_status_alerts_mono (now planCode : String)
    (monitored : List String) (lastSt : List (String × String))
    (dc status key : String) (cfg : Option ConfigInfo)
    (st : Subscription × List AlertEvent) :
    ∃ a, (process_status now planCode monitored lastSt dc status key cfg st).2 =
      st.2 ++ a := by
  unfold process_status
  split
  · exact ⟨[], by simp⟩
  · exact ⟨_, rfl⟩

theorem foldl_alerts_mono {α : Type}
    (f : (Subscription × List AlertEvent) → α → Subscription × List AlertEvent)
    (hf : ∀ st x, ∃ a, (f st x).2 = st.2 ++ a) :
    ∀ (l : List α) (st : Subscription × List AlertEvent),
      ∃ rest, ((l.foldl f st).2) = st.2 ++ rest := by
  intro l
  induction l with
  | nil => intro st; exact ⟨[], by simp⟩
  | cons x xs ih =>
    intro st
    obtain ⟨a, ha⟩ := hf st x
    obtain ⟨rest, hrest⟩ := ih (f st x)
    exact ⟨a ++ rest, by rw [List.foldl_cons, hrest, ha, List.append_assoc]⟩

theorem process_entry_alerts_mono (now planCode : String)
    (monitored : List String) (lastSt : List (String × String))
    (st : Subscription × List AlertEvent) (entry : String × ConfigData) :
    ∃ a, (process_entry now planCode monitored lastSt st entry).2 = st.2 ++ a := by
  unfold process_entry
  rcases entry with ⟨k, d⟩
  cases d with
  | str s => exact process_status_alerts_mono ..
  | config dcs mem sto =>
    exact foldl_alerts_mono _ (fun st q => process_status_alerts_mono ..) dcs st

/-! ### Claims -/

/-- Claim C2: a status key with no prior entry in `lastStatus` (old status
`None`) whose new status is `"unavailable"` produces no notification and no
history entry — the subscription is returned unchanged. -/
theorem claim_C2 (now : String) (sub : Subscription) (planCode dc : String)
    (cfg : Option ConfigInfo) :
    check_and_notify_change now sub planCode dc "unavailable" none cfg =
      (sub, []) := by
  simp [check_and_notify_change, decide_change_type]

/-- Claim C7: `set_check_interval` with an argument below 60 returns
`false` and leaves the whole state (in particular the interval) unchanged;
with an argument of at least 60 it returns `true` and the new value is
reflected in `get_status`. -/
theorem claim_C7 (st : MonitorState) (interval : Int) :
    (interval < 60 → set_check_interval st interval = (st, false)) ∧
    (60 ≤ interval →
      (set_check_interval st interval).2 = true ∧
      (get_status (set_check_interval st interval).1).checkInterval =
        interval ∧
      (set_check_interval st interval).1 =
        { st with checkInterval := interval }) := by
  constructor
  · intro h
    simp [set_check_interval, h]
  · intro h
    simp [set_check_interval, get_status, not_lt.mpr h]

/-- Claim C7 witness at interval 59 (rejected, state kept) and 60
(accepted, visible in `get_status`). -/
theorem claim_C7_witness :
    set_check_interval ⟨false, [], ∅, 60⟩ 59 = (⟨false, [], ∅, 60⟩, false) ∧
    (set_check_interval ⟨false, [], ∅, 60⟩ 120).2 = true ∧
    (get_status (set_check_interval ⟨false, [], ∅, 60⟩ 120).1).checkInterval =
      120 :=
  ⟨(claim_C7 ⟨false, [], ∅, 60⟩ 59).1 (by decide),
   ((claim_C7 ⟨false, [], ∅, 60⟩ 120).2 (by decide)).1,
   ((claim_C7 ⟨false, [], ∅, 60⟩ 120).2 (by decide)).2.1⟩

/-- Claim C8: an empty (falsy) snapshot makes the check cycle a no-op for
the subscription — no notification, `lastStatus` and `history`
unchanged. -/
theorem claim_C8 (now : String) (sub : Subscription) :
    check_availability_change now sub [] = (sub, []) ∧
    (check_availability_change now sub []).1.lastStatus = sub.lastStatus ∧
    (check_availability_change now sub []).1.history = sub.history := by
  refine ⟨?_, ?_, ?_⟩ <;> simp [check_availability_change]

/-- Claim C6 counterexample: `check_new_servers` treats an empty known set
as "first run".  After a first check that observed no plan codes, the
known set is still empty, so the second check seeds it silently: `"a"` is
in the observation and not in the known set, yet no new-offering alert
fires — contradicting "every subsequent check fires one alert per code
present in the observation but not in the known set". -/
theorem claim_C6_counterexample :
    "a" ∈ current_codes [⟨some "a"⟩] ∧
    "a" ∉ (check_new_servers ∅ []).1 ∧
    (check_new_servers ((check_new_servers ∅ []).1) [⟨some "a"⟩]).2 = ∅ := by
  decide

/-- Claim C6 (amended): a check made while the known-offerings set is
empty (the first check, and any later check as long as every prior
observation contained no plan codes) seeds the set from the observed codes
without firing any alert; a check made while the set is non-empty fires
exactly one new-offering alert per code present in the observation but not
in the known set, and codes absent from the observation are never
reported. -/
theorem claim_C6_amended (known : Finset String) (servers : List ServerInfo) :
    (known = ∅ →
      check_new_servers known servers = (current_codes servers, ∅)) ∧
    (known ≠ ∅ →
      (check_new_servers known servers).2 = current_codes servers \ known ∧
      (∀ c ∈ (check_new_servers known servers).2,
        c ∈ current_codes servers) ∧
      (∀ c ∈ known, c ∉ (check_new_servers known servers).2)) := by
  constructor
  · intro h
    simp [check_new_servers, h]
  · intro h
    by_cases hd : current_codes servers \ known = ∅
    · have hres : check_new_servers known servers = (known, ∅) := by
        simp [check_new_servers, h, hd]
      rw [hres]
      exact ⟨hd.symm, by simp, by simp⟩
    · have hres : check_new_servers known servers =
          (current_codes servers, current_codes servers \ known) := by
        simp [check_new_servers, h, hd]
      rw [hres]
      exact ⟨rfl, fun c hc => (Finset.mem_sdiff.mp hc).1,
        fun c hc hc2 => (Finset.mem_sdiff.mp hc2).2 hc⟩

/-- Claim C6 witness: an empty known set is seeded from the observation
without alerts; a non-empty known set `{"a"}` checked against `["b"]`
yields the alert set `{"b"} \ {"a"}`. -/
theorem claim_C6_amended_witness :
    check_new_servers ∅ [⟨some "a"⟩] = (current_codes [⟨some "a"⟩], ∅) ∧
    (check_new_servers {"a"} [⟨some "b"⟩]).2 =
      current_codes [⟨some "b"⟩] \ {"a"} :=
  ⟨(claim_C6_amended ∅ [⟨some "a"⟩]).1 rfl,
   ((claim_C6_amended {"a"} [⟨some "b"⟩]).2 (by decide)).1⟩

/-- Claim C10 counterexample: the known-offerings set does shrink.  After
seeding with `["a"]` the set is `{"a"}`; a check against `["b"]` replaces
it wholesale with `{"b"}` (dropping `"a"`), so the new set is not a
superset of the old one, and when `"a"` reappears in a later observation
it fires a new-offering alert again. -/
theorem claim_C10_counterexample :
    "a" ∈ (check_new_servers ∅ [⟨some "a"⟩]).1 ∧
    ¬(check_new_servers ∅ [⟨some "a"⟩]).1 ⊆
      (check_new_servers ((check_new_servers ∅ [⟨some "a"⟩]).1)
        [⟨some "b"⟩]).1 ∧
    "a" ∈ (check_new_servers
      ((check_new_servers ((check_new_servers ∅ [⟨some "a"⟩]).1)
        [⟨some "b"⟩]).1)
      [⟨some "a"⟩, ⟨some "b"⟩]).2 := by
  decide

/-- Claim C10 (amended): once non-empty, the known-offerings set is only
ever changed by replacing it wholesale with the current observation's code
set, and only when that observation contains at least one unknown code
(otherwise it is left untouched and nothing fires); such a replacement can
drop codes, so the set may shrink, and a dropped code fires a new-offering
alert when it reappears. -/
theorem claim_C10_amended (known : Finset String)
    (servers : List ServerInfo) :
    known ≠ ∅ →
      (current_codes servers \ known = ∅ →
        check_new_servers known servers = (known, ∅)) ∧
      (current_codes servers \ known ≠ ∅ →
        check_new_servers known servers =
          (current_codes servers, current_codes servers \ known)) := by
  intro h
  constructor
  · intro hd
    simp [check_new_servers, h, hd]
  · intro hd
    simp [check_new_servers, h, hd]

/-- Claim C10 witness: with known set `{"a"}`, an observation `["a"]` has
no unknown code and leaves the state untouched, while an observation
`["b"]` replaces the set wholesale with `{"b"}` and alerts on `"b"`. -/
theorem claim_C10_amended_witness :
    check_new_servers {"a"} [⟨some "a"⟩] = ({"a"}, ∅) ∧
    check_new_servers {"a"} [⟨some "b"⟩] =
      (current_codes [⟨some "b"⟩], current_codes [⟨some "b"⟩] \ {"a"}) :=
  ⟨(claim_C10_amended {"a"} [⟨some "a"⟩] (by decide)).1 (by decide),
   (claim_C10_amended {"a"} [⟨some "b"⟩] (by decide)).2 (by decide)⟩

/-- Claim C1: the change detector produces a candidate transition in
exactly two cases — prior status absent or `"unavailable"` with a new
status other than `"unavailable"` (candidate `available`), and prior
status present and not `"unavailable"` with new status `"unavailable"`
(candidate `unavailable`).  A candidate fires (one notification plus one
history entry) precisely when the corresponding preference flag is
set, and in every other case (including an unchanged status) the
subscription is returned untouched with no notification.  The defaults of
`add_subscription` are `notifyAvailable = true`,
`notifyUnavailable = false`. -/
theorem claim_C1 (now : String) (sub : Subscription)
    (planCode dc status : String) (old : Option String)
    (cfg : Option ConfigInfo) :
    (((old = none ∨ old = some "unavailable") ∧ status ≠ "unavailable") →
      (sub.notifyAvailable = true →
        check_and_notify_change now sub planCode dc status old cfg =
          ({ sub with history := some (history_append_trunc sub.history
               ⟨now, dc, status, "available", old, cfg⟩) },
           [⟨planCode, dc, status, "available", cfg, sub.serverName⟩])) ∧
      (sub.notifyAvailable = false →
        check_and_notify_change now sub planCode dc status old cfg =
          (sub, []))) ∧
    ((old ≠ none ∧ old ≠ some "unavailable" ∧ status = "unavailable") →
      (sub.notifyUnavailable = true →
        check_and_notify_change now sub planCode dc status old cfg =
          ({ sub with history := some (history_append_trunc sub.history
               ⟨now, dc, status, "unavailable", old, cfg⟩) },
           [⟨planCode, dc, status, "unavailable", cfg, sub.serverName⟩])) ∧
      (sub.notifyUnavailable = false →
        check_and_notify_change now sub planCode dc status old cfg =
          (sub, []))) ∧
    (¬((old = none ∨ old = some "unavailable") ∧ status ≠ "unavailable") →
      ¬(old ≠ none ∧ old ≠ some "unavailable" ∧ status = "unavailable") →
      check_and_notify_change now sub planCode dc status old cfg =
        (sub, [])) ∧
    (∀ s ∈ add_subscription_defaults [] now planCode,
      s.notifyAvailable = true ∧ s.notifyUnavailable = false) := by
  refine ⟨?_, ?_, ?_, ?_⟩
  · rintro ⟨hold | hold, hst⟩ <;>
      constructor <;> intro hflag <;>
      simp [check_and_notify_change, decide_change_type, hold, hst, hflag]
  · rintro ⟨hne, hnu, hst⟩
    constructor <;> intro hflag <;>
      simp [check_and_notify_change, decide_change_type, hne, hnu, hst,
        hflag]
  · intro h1 h2
    rcases Decidable.em (status = "unavailable") with hst | hst
    · rcases Decidable.em (old = none) with ho | ho
      · simp [check_and_notify_change, decide_change_type, hst, ho]
      · rcases Decidable.em (old = some "unavailable") with hu | hu
        · simp [check_and_notify_change, decide_change_type, hst, hu]
        · exact absurd ⟨ho, hu, hst⟩ h2
    · rcases Decidable.em (old = none) with ho | ho
      · exact absurd ⟨Or.inl ho, hst⟩ h1
      · rcases Decidable.em (old = some "unavailable") with hu | hu
        · exact absurd ⟨Or.inr hu, hst⟩ h1
        · simp [check_and_notify_change, decide_change_type, hst, ho, hu]
  · intro s hs
    simp only [add_subscription_defaults, add_subscription, List.any_nil,
      Bool.false_eq_true, if_false, List.nil_append, List.mem_singleton]
      at hs
    rw [hs]
    exact ⟨rfl, rfl⟩

/-- Claim C1 witness: a concrete subscription with default preferences
sees `unavailable → available` fire an `available` notification plus
history entry, and `available → unavailable` stay silent because
`notifyUnavailable` is off. -/
theorem claim_C1_witness :
    check_and_notify_change "t" ⟨"pc", [], true, false, [], "t0", some [],
        none⟩ "pc" "rbx" "available" (some "unavailable") none =
      ({ planCode := "pc", datacenters := [], notifyAvailable := true,
         notifyUnavailable := false, lastStatus := [], createdAt := "t0",
         history := some [⟨"t", "rbx", "available", "available",
           some "unavailable", none⟩], serverName := none },
       [⟨"pc", "rbx", "available", "available", none, none⟩]) ∧
    check_and_notify_change "t" ⟨"pc", [], true, false, [], "t0", some [],
        none⟩ "pc" "rbx" "unavailable" (some "available") none =
      (⟨"pc", [], true, false, [], "t0", some [], none⟩, []) := by
  constructor
  · have h := ((claim_C1 "t" ⟨"pc", [], true, false, [], "t0", some [],
      none⟩ "pc" "rbx" "available" (some "unavailable") none).1
      (by decide)).1 rfl
    rw [h]
    rfl
  · exact ((claim_C1 "t" ⟨"pc", [], true, false, [], "t0", some [],
      none⟩ "pc" "rbx" "unavailable" (some "available") none).2.1
      (by decide)).2 rfl

theorem history_append_trunc_eq_drop (h : Option (List HistoryEntry))
    (e : HistoryEntry) :
    history_append_trunc h e =
      (h.getD [] ++ [e]).drop ((h.getD [] ++ [e]).length - 100) := by
  simp only [history_append_trunc]
  split
  · rfl
  · next hle =>
    have h0 : (h.getD [] ++ [e]).length - 100 = 0 := by omega
    rw [h0, List.drop_zero]

theorem history_append_trunc_length_le (h : Option (List HistoryEntry))
    (e : HistoryEntry) : (history_append_trunc h e).length ≤ 100 := by
  rw [history_append_trunc_eq_drop, List.length_drop]
  omega

theorem trunc_append_trunc {α : Type} (l₁ l₂ : List α) :
    (l₁.drop (l₁.length - 100) ++ l₂).drop
        ((l₁.drop (l₁.length - 100) ++ l₂).length - 100) =
      (l₁ ++ l₂).drop ((l₁ ++ l₂).length - 100) := by
  rcases le_or_lt l₁.length 100 with h | h
  · have h0 : l₁.length - 100 = 0 := by omega
    simp [h0]
  · rw [List.drop_append_eq_append_drop, List.drop_append_eq_append_drop,
      List.drop_drop]
    have e1 : l₁.length - 100 +
        ((l₁.drop (l₁.length - 100) ++ l₂).length - 100) =
        (l₁ ++ l₂).length - 100 := by
      simp only [List.length_append, List.length_drop]
      omega
    have e2 : (l₁.drop (l₁.length - 100) ++ l₂).length - 100 -
        (l₁.drop (l₁.length - 100)).length =
        (l₁ ++ l₂).length - 100 - l₁.length := by
      simp only [List.length_append, List.length_drop]
      omega
    rw [e1, e2]

theorem foldl_history_append_trunc (es : List HistoryEntry) :
    ∀ l : List HistoryEntry, l.length ≤ 100 →
      es.foldl (fun h e => some (history_append_trunc h e)) (some l) =
        some ((l ++ es).drop ((l ++ es).length - 100)) := by
  induction es with
  | nil =>
    intro l hl
    have h0 : l.length - 100 = 0 := by omega
    simp [h0]
  | cons e es ih =>
    intro l hl
    have hlen : ((l ++ [e]).drop ((l ++ [e]).length - 100)).length ≤ 100 := by
      rw [List.length_drop]
      omega
    have hstep : history_append_trunc (some l) e =
        (l ++ [e]).drop ((l ++ [e]).length - 100) := by
      rw [history_append_trunc_eq_drop]
      rfl
    rw [List.foldl_cons, hstep, ih _ hlen]
    refine congrArg some ?_
    rw [trunc_append_trunc (l ++ [e]) es, List.append_assoc]
    rfl

/-- Claim C3: a fired transition always leaves the subscription's history
present with at most 100 entries; starting from an empty history, a
sequence of fired transitions with entries `es` (in order, via the
append-and-truncate step of every fire) leaves exactly the most recent 100
entries in order, newest last (`es.drop (es.length - 100)`); in
particular, after the 101st fired transition the oldest entry has been
evicted and the surviving list is `es.tail`. -/
theorem claim_C3 :
    (∀ (now : String) (sub : Subscription) (planCode dc status : String)
      (old : Option String) (cfg : Option ConfigInfo),
      (check_and_notify_change now sub planCode dc status old cfg).2 ≠ [] →
      ∃ l, (check_and_notify_change now sub planCode dc status old
          cfg).1.history = some l ∧ l.length ≤ 100) ∧
    (∀ es : List HistoryEntry,
      es.foldl (fun h e => some (history_append_trunc h e)) (some []) =
        some (es.drop (es.length - 100))) ∧
    (∀ es : List HistoryEntry, es.length = 101 →
      es.foldl (fun h e => some (history_append_trunc h e)) (some []) =
        some es.tail) := by
  have hmain : ∀ es : List HistoryEntry,
      es.foldl (fun h e => some (history_append_trunc h e)) (some []) =
        some (es.drop (es.length - 100)) := by
    intro es
    have h := foldl_history_append_trunc es [] (by simp)
    simpa using h
  refine ⟨?_, hmain, ?_⟩
  · intro now sub planCode dc status old cfg hne
    cases hdt : decide_change_type sub status old with
    | none =>
      exact absurd (by simp [check_and_notify_change, hdt]) hne
    | some ct =>
      refine ⟨history_append_trunc sub.history
        ⟨now, dc, status, ct, old, cfg⟩, ?_,
        history_append_trunc_length_le _ _⟩
      simp [check_and_notify_change, hdt]
  · intro es h101
    rw [hmain es, h101]
    norm_num

/-- Claim C3 witness: a concrete fired transition yields a present history
of at most 100 entries, and folding 101 identical entries into an empty
history leaves exactly the last 100. -/
theorem claim_C3_witness :
    (∃ l, (check_and_notify_change "t" ⟨"pc", [], true, false, [], "t0",
        some [], none⟩ "pc" "rbx" "available" none none).1.history =
        some l ∧ l.length ≤ 100) ∧
    (List.replicate 101 (⟨"t", "dc", "available", "available", none,
        none⟩ : HistoryEntry)).foldl
        (fun h e => some (history_append_trunc h e)) (some []) =
      some (List.replicate 100 (⟨"t", "dc", "available", "available", none,
        none⟩ : HistoryEntry)) := by
  constructor
  · exact claim_C3.1 "t" _ "pc" "rbx" "available" none none (by decide)
  · rw [claim_C3.2.1 (List.replicate 101 ⟨"t", "dc", "available",
      "available", none, none⟩)]
    simp [List.drop_replicate]

theorem update_first_length (subs : List Subscription) (pc : String)
    (f : Subscription → Subscription) :
    (update_first subs pc f).length = subs.length := by
  induction subs with
  | nil => rfl
  | cons s rest ih =>
    simp only [update_first]
    split <;> simp [ih]

theorem mem_update_first_of_ne (subs : List Subscription) (pc : String)
    (f : Subscription → Subscription) (t : Subscription) (ht : t ∈ subs)
    (hne : t.planCode ≠ pc) : t ∈ update_first subs pc f := by
  induction subs with
  | nil => cases ht
  | cons s rest ih =>
    rcases List.mem_cons.mp ht with rfl | hmem
    · simp only [update_first]
      split
      · next hs => exact absurd hs hne
      · exact List.mem_cons_self ..
    · simp only [update_first]
      split
      · exact List.mem_cons_of_mem _ hmem
      · exact List.mem_cons_of_mem _ (ih hmem)

theorem update_first_map_planCode (subs : List Subscription) (pc : String)
    (f : Subscription → Subscription)
    (hf : ∀ s, (f s).planCode = s.planCode) :
    (update_first subs pc f).map Subscription.planCode =
      subs.map Subscription.planCode := by
  induction subs with
  | nil => rfl
  | cons s rest ih =>
    simp only [update_first]
    split <;> simp [hf, ih]

/-- Claim C4: `add_subscription` on a plan code that already has a
subscription takes the update path: the list keeps its length, every other
subscription is untouched, and the updated record only changes the
datacenter filter, the two preference flags and the server name, while
`lastStatus`, `planCode` and `createdAt` are preserved and `history` is
kept as-is (initialized to `[]` only when the field is absent); the
plan-code sequence — hence at-most-one-subscription-per-plan-code — is
preserved, and on the insert path a fresh plan code keeps it duplicate
free. -/
theorem claim_C4 (subs : List Subscription) (now pc : String)
    (dcs : Option (List String)) (na nu : Bool) (sn : Option String)
    (ls : Option (List (String × String)))
    (hist : Option (List HistoryEntry)) :
    ((∃ s ∈ subs, s.planCode = pc) →
      add_subscription subs now pc dcs na nu sn ls hist =
        update_first subs pc (fun s => update_existing s dcs na nu sn) ∧
      (∀ t ∈ subs, t.planCode ≠ pc →
        t ∈ add_subscription subs now pc dcs na nu sn ls hist) ∧
      (add_subscription subs now pc dcs na nu sn ls hist).length =
        subs.length) ∧
    (∀ t : Subscription,
      (update_existing t dcs na nu sn).lastStatus = t.lastStatus ∧
      (update_existing t dcs na nu sn).history =
        some (t.history.getD []) ∧
      (update_existing t dcs na nu sn).planCode = t.planCode ∧
      (update_existing t dcs na nu sn).createdAt = t.createdAt ∧
      (update_existing t dcs na nu sn).datacenters = dcs.getD [] ∧
      (update_existing t dcs na nu sn).notifyAvailable = na ∧
      (update_existing t dcs na nu sn).notifyUnavailable = nu ∧
      (update_existing t dcs na nu sn).serverName = sn) ∧
    ((subs.map Subscription.planCode).Nodup →
      ((add_subscription subs now pc dcs na nu sn ls hist).map
        Subscription.planCode).Nodup) := by
  refine ⟨?_, ?_, ?_⟩
  · intro hex
    have ha : (subs.any fun s => s.planCode == pc) = true := by
      simp only [List.any_eq_true, beq_iff_eq]
      exact hex
    have heq : add_subscription subs now pc dcs na nu sn ls hist =
        update_first subs pc (fun s => update_existing s dcs na nu sn) := by
      simp [add_subscription, ha]
    refine ⟨heq, ?_, ?_⟩
    · intro t ht hne
      rw [heq]
      exact mem_update_first_of_ne subs pc _ t ht hne
    · rw [heq]
      exact update_first_length ..
  · intro t
    exact ⟨rfl, rfl, rfl, rfl, rfl, rfl, rfl, rfl⟩
  · intro hnd
    by_cases ha : (subs.any fun s => s.planCode == pc) = true
    · have heq : add_subscription subs now pc dcs na nu sn ls hist =
          update_first subs pc
            (fun s => update_existing s dcs na nu sn) := by
        simp [add_subscription, ha]
      rw [heq, update_first_map_planCode subs pc
        (fun s => update_existing s dcs na nu sn) (fun s => rfl)]
      exact hnd
    · have hnotmem : pc ∉ subs.map Subscription.planCode := by
        intro hmem
        apply ha
        simp only [List.any_eq_true, beq_iff_eq]
        obtain ⟨s, hs, hspc⟩ := List.mem_map.mp hmem
        exact ⟨s, hs, hspc⟩
      have heq : add_subscription subs now pc dcs na nu sn ls hist =
          subs ++ [new_subscription now pc dcs na nu sn ls hist] := by
        simp only [add_subscription]
        rw [if_neg ha]
      rw [heq]
      simp only [List.map_append, List.map_cons, List.map_nil]
      rw [List.nodup_append]
      exact ⟨hnd, List.nodup_singleton _, by
        simp only [List.disjoint_singleton]
        exact hnotmem⟩

/-- Claim C4 witness: updating an existing subscription with new filters,
flags and name keeps the list at one entry and preserves its `lastStatus`
and `history`. -/
theorem claim_C4_witness :
    add_subscription [⟨"pc", [], true, false, [("fsn1", "available")],
        "t0", some [], some "old name"⟩] "t1" "pc" (some ["rbx"]) false
        true (some "new name") none none =
      update_first [⟨"pc", [], true, false, [("fsn1", "available")], "t0",
        some [], some "old name"⟩] "pc"
        (fun s => update_existing s (some ["rbx"]) false true
          (some "new name")) ∧
    (update_existing (⟨"pc", [], true, false, [("fsn1", "available")],
        "t0", some [], some "old name"⟩ : Subscription) (some ["rbx"])
        false true (some "new name")).lastStatus =
      [("fsn1", "available")] := by
  constructor
  · exact ((claim_C4 [⟨"pc", [], true, false, [("fsn1", "available")],
      "t0", some [], some "old name"⟩] "t1" "pc" (some ["rbx"]) false true
      (some "new name") none none).1
      ⟨_, List.mem_singleton_self _, rfl⟩).1
  · exact ((claim_C4 [⟨"pc", [], true, false, [("fsn1", "available")],
      "t0", some [], some "old name"⟩] "t1" "pc" (some ["rbx"]) false true
      (some "new name") none none).2.1 _).1

theorem dictInsert_of_not_mem (m : List (String × String)) (k v : String)
    (h : k ∉ m.map Prod.fst) : dictInsert m k v = m ++ [(k, v)] := by
  induction m with
  | nil => rfl
  | cons p rest ih =>
    simp only [List.map_cons, List.mem_cons, not_or] at h
    simp only [dictInsert]
    rw [if_neg (fun hpk => h.1 hpk.symm), ih h.2]
    rfl

theorem foldl_dictInsert_nodup :
    ∀ (ps acc : List (String × String)),
      ((acc ++ ps).map Prod.fst).Nodup →
      ps.foldl (fun m q => dictInsert m q.1 q.2) acc = acc ++ ps := by
  intro ps
  induction ps with
  | nil =>
    intro acc h
    simp
  | cons q rest ih =>
    intro acc h
    have hk : q.1 ∉ acc.map Prod.fst := by
      intro hmem
      rw [List.map_append] at h
      exact (List.nodup_append.mp h).2.2 hmem (by simp)
    have h' : (((acc ++ [q]) ++ rest).map Prod.fst).Nodup := by
      rw [List.append_assoc]
      exact h
    rw [List.foldl_cons, dictInsert_of_not_mem acc q.1 q.2 hk, ih _ h',
      List.append_assoc]
    rfl

theorem dictGet_eq_some_iff (m : List (String × String))
    (hm : (m.map Prod.fst).Nodup) (k v : String) :
    dictGet m k = some v ↔ (k, v) ∈ m := by
  induction m with
  | nil => simp [dictGet]
  | cons p rest ih =>
    rw [List.map_cons, List.nodup_cons] at hm
    simp only [dictGet, List.mem_cons]
    by_cases hp : p.1 = k
    · rw [if_pos hp]
      constructor
      · intro h
        left
        have hv : p.2 = v := by injection h
        rw [← hp, ← hv]
      · rintro (h | h)
        · rw [← h]
        · exact absurd (hp ▸ List.mem_map.mpr ⟨(k, v), h, rfl⟩) hm.1
    · rw [if_neg hp, ih hm.2]
      constructor
      · exact Or.inr
      · rintro (h | h)
        · exact absurd (congrArg Prod.fst h.symm) hp
        · exact h

theorem mem_normalized_pairs_iff (snap : Snapshot) (k v : String) :
    (k, v) ∈ normalized_pairs snap ↔
      ((k, ConfigData.str v) ∈ snap ∨
       ∃ ck dcs m s dc, (ck, ConfigData.config dcs m s) ∈ snap ∧
         (dc, v) ∈ dcs ∧ k = dc ++ "|" ++ ck) := by
  simp only [normalized_pairs, List.mem_flatMap]
  constructor
  · rintro ⟨⟨pk, pd⟩, hp, hmem⟩
    cases pd with
    | str s =>
      simp only [List.mem_singleton, Prod.mk.injEq] at hmem
      rw [hmem.1, hmem.2]
      exact Or.inl hp
    | config dcs m s =>
      simp only [List.mem_map, Prod.mk.injEq] at hmem
      obtain ⟨⟨qd, qs⟩, hq, hk, hv⟩ := hmem
      exact Or.inr ⟨pk, dcs, m, s, qd, hp, hv ▸ hq, hk.symm⟩
  · rintro (h | ⟨ck, dcs, m, s, dc, hp, hdc, hk⟩)
    · exact ⟨(k, ConfigData.str v), h, by simp⟩
    · refine ⟨(ck, ConfigData.config dcs m s), hp, ?_⟩
      simp only [List.mem_map, Prod.mk.injEq]
      exact ⟨(dc, v), hdc, hk.symm, rfl⟩

/-- Claim C5: after a check cycle on a non-empty snapshot (no exception
raised), `lastStatus` is exactly the normalized snapshot regardless of the
subscription's prior state, datacenter filter or which keys fired; when
the normalized keys are free of collisions the normalized dict is the
normalized pair list itself and lookup succeeds exactly on those pairs
(so a key absent from the snapshot is dropped); and a normalized pair
exists precisely for a legacy string entry (key mapped directly) or a
configuration entry (one `dc ++ "|" ++ configKey` pair per datacenter of
its sub-map). -/
theorem claim_C5 (now : String) (sub : Subscription) (snap : Snapshot)
    (hne : snap ≠ []) :
    (check_availability_change now sub snap).1.lastStatus =
      normalize_snapshot snap ∧
    (((normalized_pairs snap).map Prod.fst).Nodup →
      normalize_snapshot snap = normalized_pairs snap ∧
      ∀ k v,
        dictGet ((check_availability_change now sub snap).1.lastStatus) k =
          some v ↔ (k, v) ∈ normalized_pairs snap) ∧
    (∀ k v, (k, v) ∈ normalized_pairs snap ↔
      ((k, ConfigData.str v) ∈ snap ∨
       ∃ ck dcs m s dc, (ck, ConfigData.config dcs m s) ∈ snap ∧
         (dc, v) ∈ dcs ∧ k = dc ++ "|" ++ ck)) := by
  have h1 : (check_availability_change now sub snap).1.lastStatus =
      normalize_snapshot snap := by
    simp [check_availability_change, hne]
  refine ⟨h1, ?_, fun k v => mem_normalized_pairs_iff snap k v⟩
  intro hnd
  have h2 : normalize_snapshot snap = normalized_pairs snap := by
    unfold normalize_snapshot
    have h := foldl_dictInsert_nodup (normalized_pairs snap) []
      (by simpa using hnd)
    simpa using h
  refine ⟨h2, fun k v => ?_⟩
  rw [h1, h2]
  exact dictGet_eq_some_iff _ hnd k v

/-- Claim C5 witness on a two-entry snapshot mixing a legacy entry and a
configuration entry: the stored `lastStatus` is the normalized snapshot
and lookup of the composite key succeeds. -/
theorem claim_C5_witness :
    (check_availability_change "t" ⟨"pc", [], true, false,
        [("gra", "available")], "t0", some [], none⟩
        [("fsn1", ConfigData.str "available"),
         ("X", ConfigData.config [("rbx", "available")] none
           none)]).1.lastStatus =
      normalize_snapshot [("fsn1", ConfigData.str "available"),
        ("X", ConfigData.config [("rbx", "available")] none none)] ∧
    (dictGet ((check_availability_change "t" ⟨"pc", [], true, false,
        [("gra", "available")], "t0", some [], none⟩
        [("fsn1", ConfigData.str "available"),
         ("X", ConfigData.config [("rbx", "available")] none
           none)]).1.lastStatus) "rbx|X" = some "available" ↔
      ("rbx|X", "available") ∈ normalized_pairs
        [("fsn1", ConfigData.str "available"),
         ("X", ConfigData.config [("rbx", "available")] none none)]) :=
  ⟨(claim_C5 "t" ⟨"pc", [], true, false, [("gra", "available")], "t0",
      some [], none⟩ [("fsn1", ConfigData.str "available"),
      ("X", ConfigData.config [("rbx", "available")] none none)]
      (by decide)).1,
   (((claim_C5 "t" ⟨"pc", [], true, false, [("gra", "available")], "t0",
      some [], none⟩ [("fsn1", ConfigData.str "available"),
      ("X", ConfigData.config [("rbx", "available")] none none)]
      (by decide)).2.1 (by decide)).2 "rbx|X" "available")⟩

/-- Claim C9: if an exception interrupts the per-key loop after `n`
snapshot entries, the subscription's `lastStatus` still holds its value
from before the check (the wholesale replacement is skipped), while the
notifications already sent for the processed prefix are a prefix of the
notifications a full run would send — so the `lastStatus` update is atomic
on error but the notification/history side effects are not rolled back. -/
theorem claim_C9 (now : String) (sub : Subscription) (snap : Snapshot)
    (n : Nat) (hne : snap ≠ []) :
    (check_availability_change_exc now sub snap n).1.lastStatus =
      sub.lastStatus ∧
    ∃ rest, (check_availability_change now sub snap).2 =
      (check_availability_change_exc now sub snap n).2 ++ rest := by
  have hexc : check_availability_change_exc now sub snap n =
      (snap.take n).foldl
        (process_entry now sub.planCode sub.datacenters sub.lastStatus)
        (sub, []) := by
    simp [check_availability_change_exc, hne]
  constructor
  · rw [hexc]
    exact foldl_lastStatus_invariant _
      (fun st e => process_entry_lastStatus now sub.planCode
        sub.datacenters sub.lastStatus st e) (snap.take n) (sub, [])
  · have hfull : (check_availability_change now sub snap).2 =
        (snap.foldl
          (process_entry now sub.planCode sub.datacenters sub.lastStatus)
          (sub, [])).2 := by
      simp [check_availability_change, hne]
    have hsplit : snap.foldl
        (process_entry now sub.planCode sub.datacenters sub.lastStatus)
        (sub, []) =
        (snap.drop n).foldl
          (process_entry now sub.planCode sub.datacenters sub.lastStatus)
          ((snap.take n).foldl
            (process_entry now sub.planCode sub.datacenters sub.lastStatus)
            (sub, [])) := by
      rw [← List.foldl_append, List.take_append_drop]
    obtain ⟨rest, hrest⟩ := foldl_alerts_mono _
      (fun st e => process_entry_alerts_mono now sub.planCode
        sub.datacenters sub.lastStatus st e) (snap.drop n)
      ((snap.take n).foldl
        (process_entry now sub.planCode sub.datacenters sub.lastStatus)
        (sub, []))
    refine ⟨rest, ?_⟩
    rw [hfull, hexc, hsplit, hrest]

/-- Claim C9 witness: a two-entry snapshot whose first entry fires, with
the exception hitting after one entry — the notification for the first
entry is out (alert list non-empty, and a prefix of the full run's), yet
`lastStatus` is still the pre-check empty map. -/
theorem claim_C9_witness :
    (check_availability_change_exc "t" ⟨"pc", [], true, false, [], "t0",
        some [], none⟩ [("fsn1", ConfigData.str "available"),
        ("gra", ConfigData.str "available")] 1).1.lastStatus = [] ∧
    (∃ rest, (check_availability_change "t" ⟨"pc", [], true, false, [],
        "t0", some [], none⟩ [("fsn1", ConfigData.str "available"),
        ("gra", ConfigData.str "available")]).2 =
      (check_availability_change_exc "t" ⟨"pc", [], true, false, [], "t0",
        some [], none⟩ [("fsn1", ConfigData.str "available"),
        ("gra", ConfigData.str "available")] 1).2 ++ rest) ∧
    (check_availability_change_exc "t" ⟨"pc", [], true, false, [], "t0",
        some [], none⟩ [("fsn1", ConfigData.str "available"),
        ("gra", ConfigData.str "available")] 1).2 ≠ [] :=
  ⟨(claim_C9 "t" ⟨"pc", [], true, false, [], "t0", some [], none⟩
      [("fsn1", ConfigData.str "available"),
       ("gra", ConfigData.str "available")] 1 (by decide)).1,
   (claim_C9 "t" ⟨"pc", [], true, false, [], "t0", some [], none⟩
      [("fsn1", ConfigData.str "available"),
       ("gra", ConfigData.str "available")] 1 (by decide)).2,
   by decide⟩

end ServerMonitor
